import Mathlib

/-!
Verification development for the apsit-notifier repository
(`utils/notification_bot.py`, `utils/senders/whatsapp_sender.py`).

Python dictionaries are modelled as association lists (`List (String × _)`),
which preserves the insertion-ordered key semantics of Python dicts; items
(Python dicts with keys `title`, `link` and optionally `date`, `author`) are
modelled as a structure with two optional fields, so that structural equality
of the Python dicts coincides with decidable equality of the structure.
Exceptions are modelled as explicit `Option PyErr` results, and the
side-effecting dispatch/cycle code as pure functions returning a record of
the calls it made.
-/

namespace ApsitNotifier

/-- A parsed notification item: the Python dict with keys `title`, `link`
and, for the "Latest Announcements" category only, `date` and `author`.
`none` in `date`/`author` models the key being absent from the dict, so
structure equality coincides with Python dict equality. -/
structure Item where
  title : String
  link : String
  date : Option String
  author : Option String
deriving DecidableEq, Repr

/-- A snapshot / delta: a Python dict from category name to item list,
modelled as an insertion-ordered association list. -/
abbrev Snapshot := List (String × List Item)

/-- `m.get(s, [])` on a Python dict: value of the first matching key,
defaulting to the empty list. -/
def getD (m : Snapshot) (s : String) : List Item :=
  match m with
  | [] => []
  | (k, v) :: rest => if k = s then v else getD rest s

/-- `NotificationBot.find_new_notifications` (notification_bot.py:178-182):
`{section: [item for item in current.get(section, []) if item not in
previous.get(section, [])] for section in current}`. -/
def find_new_notifications (current previous : Snapshot) : Snapshot :=
  current.map (fun p =>
    (p.1, p.2.filter (fun item => item ∉ getD previous p.1)))

/-! ### `clean_text` (notification_bot.py:159-166) -/

/-- The `markdown_chars` list of `clean_text`. -/
def markdown_chars : List Char :=
  ['_', '*', '[', ']', '(', ')', '~', '\x60', '>', '#', '+', '-', '=', '|',
   '\x7b', '\x7d', '.', '!']

/-- `text.replace(char, "\\" + char)` for a single-character pattern:
every occurrence of `c` is replaced by a backslash followed by `c`. -/
def replaceEsc (t : List Char) (c : Char) : List Char :=
  t.flatMap (fun x => if x = c then ['\\', c] else [x])

/-- The `for char in markdown_chars: text = text.replace(char, f"\\{char}")`
loop of `clean_text`. -/
def escape_markdown (t : List Char) : List Char :=
  markdown_chars.foldl replaceEsc t

/-- Python `str.isspace` restricted to the ASCII whitespace characters
relevant to `str.split()`. -/
def isPySpace (c : Char) : Bool :=
  c = ' ' || c = '\t' || c = '\n' || c = '\x0d' || c = '\x0b' || c = '\x0c'

/-- Python `str.split()` with no arguments: split on runs of whitespace,
discarding empty pieces. `acc` is the current word, reversed. -/
def pySplitAux : List Char → List Char → List (List Char)
  | [], acc => if acc.isEmpty then [] else [acc.reverse]
  | c :: rest, acc =>
    if isPySpace c then
      if acc.isEmpty then pySplitAux rest []
      else acc.reverse :: pySplitAux rest []
    else pySplitAux rest (c :: acc)

def pySplit (t : List Char) : List (List Char) := pySplitAux t []

/-- `" ".join(words)`. -/
def joinSpace (ws : List (List Char)) : List Char :=
  (ws.intersperse [' ']).flatMap id

/-- `NotificationBot.clean_text` (notification_bot.py:159-166): when
`for_markdown` escape the fixed markdown character set, else strip literal
backslashes; then collapse whitespace via `" ".join(text.split())`. -/
def clean_text (text : String) (for_markdown : Bool) : String :=
  let t := text.toList
  let t := if for_markdown then escape_markdown t
           else t.filter (fun c => c ≠ '\\')
  String.mk (joinSpace (pySplit t))

/-- Spec-side wording of the markdown escape: each character of the fixed
set is prefixed with a backslash, other characters are untouched. -/
def escapeSpec (t : List Char) : List Char :=
  t.flatMap (fun x => if x ∈ markdown_chars then ['\\', x] else [x])

/-- Spec-side wording of whitespace normalization: collapse all whitespace
runs (including newlines) to single spaces and trim. -/
def collapseWS (t : List Char) : String :=
  String.mk (joinSpace (pySplit t))

/-! ### Message formatters (notification_bot.py:184-199)

The source file stores its marker glyphs as the literal character
sequences below (mojibake of emoji, preserved byte-for-byte from the
repository); we embed the identical character sequences. -/

/-- `NotificationBot.format_telegram_message` (notification_bot.py:184-193).
All four text fields are passed through `clean_text` with
`for_markdown=False`; the link is used verbatim.  The `all(key in item for
key in ('date', 'author'))` guard is the match on both optional fields. -/
def format_telegram_message (sectionName : String) (item : Item) : String :=
  let clean_section := clean_text sectionName false
  let clean_title := clean_text item.title false
  let link := item.link
  let base := "ðŸ“£ New " ++ clean_section ++ "!\n\n" ++
    clean_title ++ "\nðŸ”— " ++ link
  match item.date, item.author with
  | some d, some a =>
    let clean_date := clean_text d false
    let clean_author := clean_text a false
    base ++ "\nðŸ—“ " ++ clean_date ++
      "\nðŸ‘¤ " ++ clean_author
  | _, _ => base

/-- `NotificationBot.format_whatsapp_message` (notification_bot.py:195-199).
No cleaning at all; fields are used verbatim. -/
def format_whatsapp_message (sectionName : String) (item : Item) : String :=
  let message := "ðŸ“¢ New " ++ sectionName ++ " Alert!\n" ++
    item.title ++ "\nðŸ”— " ++ item.link
  match item.date, item.author with
  | some d, some a =>
    message ++ "\nðŸ—“ " ++ d ++
      "\nðŸ‘¤ " ++ a
  | _, _ => message

/-! ### Content parser (notification_bot.py:74-157)

BeautifulSoup itself is an external library; a `section.block` element is
modelled by its pre-computed query results: the `h2` header text (if any),
whether a `div.content` child exists, and the two `find_all` result lists
the parser can ask for inside that content div. -/

/-- An `li.post` entry of the "Latest Announcements" section:
the optional inner anchor as `(text, href)`, and the optional text of the
`div.date` / `div.name` children (absence makes the `.get_text` call raise,
which the per-item `except` swallows). -/
structure PostEntry where
  anchor : Option (String × String)
  date : Option String
  author : Option String
deriving DecidableEq, Repr

/-- An entry of `find_all(['a', 'li'])` for the non-"Latest Announcements"
sections: either an `a` tag (text, optional `href` attribute — a missing
attribute raises and the entry is skipped) or an `li` tag (text plus the
`href` of its inner anchor; a missing anchor hits `continue`, a missing
`href` raises — both skip the entry, so one optional field models both). -/
inductive MixedEntry where
  | aTag (text : String) (href : Option String)
  | liTag (text : String) (anchorHref : Option String)
deriving DecidableEq, Repr

/-- A `section.block` element of the page, pre-queried. -/
structure RawSection where
  headerText : Option String
  hasContent : Bool
  postEntries : List PostEntry
  mixedEntries : List MixedEntry
deriving Repr

/-- The initial `notifications` dict of `parse_content`: the eight
recognized categories, in source order, each mapped to `[]`. -/
def recognized : List String :=
  ["Latest Announcements", "Exam Notifications", "Office Notifications",
   "Scholarship Section", "Application Formats", "Cultural Events",
   "Technical Clubs", "IEEE & CSI"]

/-- The `sections_map` heading→category table (note the lowercase first
key, exactly as in the source). -/
def sections_map : List (String × String) :=
  [("Latest announcements", "Latest Announcements"),
   ("Exam Notifications", "Exam Notifications"),
   ("Office Notifications", "Office Notifications"),
   ("Scholarship Section", "Scholarship Section"),
   ("Application Formats", "Application Formats"),
   ("Cultural Events", "Cultural Events"),
   ("Technical Clubs", "Technical Clubs"),
   ("IEEE & CSI", "IEEE & CSI")]

/-- Lookup in `sections_map` (`dict.get`). -/
def lookupStr (m : List (String × String)) (s : String) : Option String :=
  match m with
  | [] => none
  | (k, v) :: rest => if k = s then some v else lookupStr rest s

/-- `notifications[section_key].append(...)` for a whole batch of items:
extend the list at the (always present) key. -/
def appendAt (m : Snapshot) (k : String) (items : List Item) : Snapshot :=
  m.map (fun p => if p.1 = k then (p.1, p.2 ++ items) else p)

/-- Extraction of one "Latest Announcements" entry (lines 123-136): skip
when the anchor is missing (`continue`) or when `div.date`/`div.name` is
missing (AttributeError caught by the per-item `except`). `title` is
cleaned, `link`, `date`, `author` are used verbatim. -/
def extractPost (e : PostEntry) : Option Item :=
  match e.anchor with
  | none => none
  | some (titleText, href) =>
    match e.date, e.author with
    | some d, some a =>
      some { title := clean_text titleText false, link := href,
             date := some d, author := some a }
    | _, _ => none

/-- Extraction of one entry of the other sections (lines 137-152): an `a`
tag yields its text and `href`; an `li` tag yields its inner anchor's
`href` and its text with `'\n'` replaced by `' '`; missing anchor/`href`
skips the entry. -/
def extractMixed (e : MixedEntry) : Option Item :=
  match e with
  | .aTag text href =>
    match href with
    | none => none
    | some h =>
      some { title := clean_text text false, link := h,
             date := none, author := none }
  | .liTag text anchorHref =>
    match anchorHref with
    | none => none
    | some h =>
      some { title := clean_text (text.replace "\n" " ") false, link := h,
             date := none, author := none }

/-- One iteration of the `for section in sections` loop of
`parse_content` (lines 100-156). -/
def parseSection (notifications : Snapshot) (sec : RawSection) : Snapshot :=
  match sec.headerText with
  | none => notifications
  | some sectionTitle =>
    match lookupStr sections_map sectionTitle with
    | none => notifications
    | some sectionKey =>
      if sec.hasContent then
        let items :=
          if sectionKey = "Latest Announcements" then
            sec.postEntries.filterMap extractPost
          else
            sec.mixedEntries.filterMap extractMixed
        appendAt notifications sectionKey items
      else notifications

/-- `NotificationBot.parse_content` (notification_bot.py:74-157) over the
pre-queried section list. -/
def parse_content (sections : List RawSection) : Snapshot :=
  sections.foldl parseSection (recognized.map (fun c => (c, ([] : List Item))))

/-! ### Fetch, dispatch, cycle and loop (notification_bot.py:62-72, 168-222)

Python exceptions become explicit values; an awaited call that can raise is
modelled by a behaviour function returning `Option PyErr` (`some e` means
the call raised `e`). -/

/-- A Python exception, as a value. `cancelled` is `asyncio.CancelledError`;
everything else is collapsed to its message. -/
inductive PyErr where
  | cancelled
  | err (msg : String)
deriving DecidableEq, Repr

/-- The outcome of `session.get(CLONED_PAGE_URL)`: either an HTTP response
(status plus the pre-queried sections of its body) or a raised transport
exception. -/
inductive FetchResult where
  | response (status : Nat) (body : List RawSection)
  | raised
deriving Repr

/-- `NotificationBot.get_latest_notifications` (notification_bot.py:62-72):
parse on status 200, return the empty dict on any other status, and catch
every exception into the empty dict. -/
def get_latest_notifications (r : FetchResult) : Snapshot :=
  match r with
  | .response status body =>
    if status = 200 then parse_content body else []
  | .raised => []

/-- A channel sender's `send_items` coroutine, abstracted to its observable
effect on the caller: given the message list, it either returns (`none`) or
raises an exception (`some e`). -/
abbrev SenderBeh := List String → Option PyErr

/-- What one run of `send_notifications` did: the message list each
registered sender was invoked with (`none` = not invoked), and the
exception that escaped the method, if any. -/
structure DispatchResult where
  telegramCalled : Option (List String)
  whatsappCalled : Option (List String)
  raised : Option PyErr
deriving DecidableEq, Repr

/-- The message-building loop of `send_notifications`
(notification_bot.py:205-208): one telegram-rendered and one
whatsapp-rendered message per (section, item) pair, in snapshot order. -/
def build_messages (new_notifications : Snapshot) : List String × List String :=
  new_notifications.foldl
    (fun acc p =>
      p.2.foldl
        (fun acc item =>
          (acc.1 ++ [format_telegram_message p.1 item],
           acc.2 ++ [format_whatsapp_message p.1 item]))
        acc)
    ([], [])

/-- The `if self.whatsapp_sender and whatsapp_messages` tail of
`send_notifications` (notification_bot.py:212-214), reached only when the
telegram call did not raise; `tgCalled` records whether it was invoked. -/
def sendWhatsAppStep (wa : Option SenderBeh) (waMsgs : List String)
    (tgCalled : Option (List String)) : DispatchResult :=
  match wa with
  | some waBeh =>
    if waMsgs.isEmpty then
      { telegramCalled := tgCalled, whatsappCalled := none, raised := none }
    else
      match waBeh waMsgs with
      | some e =>
        { telegramCalled := tgCalled, whatsappCalled := some waMsgs,
          raised := some e }
      | none =>
        { telegramCalled := tgCalled, whatsappCalled := some waMsgs,
          raised := none }
  | none =>
    { telegramCalled := tgCalled, whatsappCalled := none, raised := none }

/-- `NotificationBot.send_notifications` (notification_bot.py:201-214).
The telegram sender is awaited first when registered and its message list
is non-empty; the whatsapp sender second under the same condition.  There
is no `try` around either call, so a raised exception propagates out of
the method at once (and, when telegram raised, whatsapp is never reached). -/
def send_notifications (tg wa : Option SenderBeh)
    (new_notifications : Snapshot) : DispatchResult :=
  let msgs := build_messages new_notifications
  match tg with
  | some tgBeh =>
    if msgs.1.isEmpty then
      sendWhatsAppStep wa msgs.2 none
    else
      match tgBeh msgs.1 with
      | some e =>
        { telegramCalled := some msgs.1, whatsappCalled := none,
          raised := some e }
      | none => sendWhatsAppStep wa msgs.2 (some msgs.1)
  | none => sendWhatsAppStep wa msgs.2 none

/-- What one run of `check_for_updates` did. -/
structure CycleResult where
  dispatched : Option DispatchResult
  saved : Option Snapshot
  raised : Option PyErr
deriving DecidableEq, Repr

/-- `NotificationBot.check_for_updates` (notification_bot.py:168-176):
fetch, load the previous state, diff, and when any category of the delta
is non-empty, dispatch and then persist the current snapshot.  Nothing is
caught here, so an exception escaping `send_notifications` skips the save
and propagates. -/
def check_for_updates (fetch : FetchResult) (previous : Snapshot)
    (tg wa : Option SenderBeh) : CycleResult :=
  let current := get_latest_notifications fetch
  let new_notifications := find_new_notifications current previous
  if new_notifications.any (fun p => !p.2.isEmpty) then
    let d := send_notifications tg wa new_notifications
    match d.raised with
    | some e => { dispatched := some d, saved := none, raised := some e }
    | none => { dispatched := some d, saved := some current, raised := none }
  else
    { dispatched := none, saved := none, raised := none }

/-- The fate of the ticker task after one loop iteration. -/
inductive LoopStatus where
  | continues
  | stoppedClean
  | crashed (e : PyErr)
deriving DecidableEq, Repr

/-- `NotificationBot._ticker_loop` (notification_bot.py:216-222), one
iteration: the `try` around the `while` catches only
`asyncio.CancelledError` (the loop ends cleanly); any other exception
escaping `check_for_updates` propagates and terminates the task; with no
exception the loop sleeps and reaches its next tick. -/
def ticker_step (r : CycleResult) : LoopStatus :=
  match r.raised with
  | none => .continues
  | some .cancelled => .stoppedClean
  | some e => .crashed e

/-! ### WhatsApp sender (whatsapp_sender.py:17-39) -/

/-- The outcome of `session.post(...)` for one message: an HTTP status, or
a raised transport exception. -/
inductive PostOutcome where
  | status (code : Nat)
  | raised (e : PyErr)
deriving DecidableEq, Repr

/-- An observable event of `send_items`: an HTTP send attempt for a message
body, or an `asyncio.sleep` of the given duration. -/
inductive Event where
  | send (body : String)
  | sleep (seconds : ℚ)
deriving DecidableEq, Repr

/-- What one call of `WhatsAppSender.send_items` did: the ordered event
trace and the exception that escaped, if any. -/
structure SendRun where
  trace : List Event
  raised : Option PyErr
deriving DecidableEq, Repr

/-- The default of the `spacing_seconds` parameter (0.7). -/
def default_spacing : ℚ := 7 / 10

/-- The `for message in messages` loop of `send_items`
(whatsapp_sender.py:19-21), with `beh i` the outcome of the i-th POST of
this call.  `_send_one` (lines 23-39) logs a non-200 response and returns,
so only a raised exception aborts the loop; each completed `_send_one` is
followed by `asyncio.sleep(spacing_seconds)`. -/
def send_items_go (beh : Nat → PostOutcome) (spacing : ℚ) :
    List String → Nat → List Event → SendRun
  | [], _, acc => { trace := acc, raised := none }
  | m :: rest, i, acc =>
    match beh i with
    | .raised e => { trace := acc ++ [.send m], raised := some e }
    | .status _ => send_items_go beh spacing rest (i + 1)
        (acc ++ [.send m, .sleep spacing])

/-- `WhatsAppSender.send_items` (whatsapp_sender.py:17-21). -/
def send_items (beh : Nat → PostOutcome) (spacing : ℚ)
    (messages : List String) : SendRun :=
  send_items_go beh spacing messages 0 []

/-- The message bodies attempted in a trace, in order. -/
def sends (trace : List Event) : List String :=
  trace.filterMap (fun ev => match ev with
    | .send m => some m
    | .sleep _ => none)

/-! ## Lemmas about the markdown-escaping loop -/

lemma replaceEsc_append (a b : List Char) (c : Char) :
    replaceEsc (a ++ b) c = replaceEsc a c ++ replaceEsc b c := by
  simp [replaceEsc]

lemma foldl_replaceEsc_append (cs a b : List Char) :
    cs.foldl replaceEsc (a ++ b)
      = cs.foldl replaceEsc a ++ cs.foldl replaceEsc b := by
  induction cs generalizing a b with
  | nil => rfl
  | cons c cs ih =>
    rw [List.foldl_cons, List.foldl_cons, List.foldl_cons, replaceEsc_append,
      ih]

lemma foldl_replaceEsc_not_mem (cs : List Char) (x : Char) (hx : x ∉ cs) :
    cs.foldl replaceEsc [x] = [x] := by
  induction cs with
  | nil => rfl
  | cons c cs ih =>
    have hxc : x ≠ c := fun h => hx (h ▸ List.mem_cons_self c cs)
    have h1 : replaceEsc [x] c = [x] := by simp [replaceEsc, hxc]
    rw [List.foldl_cons, h1]
    exact ih (fun h => hx (List.mem_cons_of_mem c h))

lemma foldl_replaceEsc_single (cs : List Char) (x : Char)
    (hnd : cs.Nodup) (hbs : '\\' ∉ cs) :
    cs.foldl replaceEsc [x] = if x ∈ cs then ['\\', x] else [x] := by
  induction cs with
  | nil => simp
  | cons c cs ih =>
    obtain ⟨hc, hnd'⟩ := List.nodup_cons.mp hnd
    have hbs' : '\\' ∉ cs := fun h => hbs (List.mem_cons_of_mem c h)
    by_cases hxc : x = c
    · subst hxc
      have h1 : replaceEsc [x] x = ['\\', x] := by simp [replaceEsc]
      rw [List.foldl_cons, h1,
        show (['\\', x] : List Char) = ['\\'] ++ [x] from rfl,
        foldl_replaceEsc_append, foldl_replaceEsc_not_mem cs '\\' hbs',
        foldl_replaceEsc_not_mem cs x hc]
      simp
    · have h1 : replaceEsc [x] c = [x] := by simp [replaceEsc, hxc]
      rw [List.foldl_cons, h1, ih hnd' hbs']
      simp [hxc]

/-- The sequential `str.replace` loop of `clean_text` is exactly the
one-pass escape described by the spec: each character of the fixed set is
prefixed with one backslash. -/
lemma escape_markdown_eq_escapeSpec (t : List Char) :
    escape_markdown t = escapeSpec t := by
  induction t with
  | nil => rfl
  | cons x t ih =>
    have hsplit : (x :: t) = [x] ++ t := rfl
    rw [escape_markdown, hsplit, foldl_replaceEsc_append,
      foldl_replaceEsc_single markdown_chars x (by decide) (by decide)]
    rw [escape_markdown] at ih
    rw [ih]
    simp [escapeSpec]

/-- C8: `clean_text` collapses all whitespace runs (including newlines)
to single spaces and trims; with `for_markdown = true` it additionally
prefixes each character of the fixed markdown set with a backslash, and
with `for_markdown = false` it strips literal backslashes; in particular
`clean_text "a   b\nc" false = "a b c"` and
`clean_text "a.b!" true = "a\.b\!"`. -/
theorem clean_text_spec (text : String) :
    clean_text text true = collapseWS (escapeSpec text.toList) ∧
    clean_text text false
      = collapseWS (text.toList.filter (fun c => c ≠ '\\')) ∧
    clean_text "a   b\nc" false = "a b c" ∧
    clean_text "a.b!" true = "a\\.b\\!" := by
  refine ⟨?_, rfl, by decide, by decide⟩
  show collapseWS (escape_markdown text.toList) = _
  rw [escape_markdown_eq_escapeSpec]

/-! ## Lemmas about `getD` and `find_new_notifications` -/

lemma getD_find_new (c p : Snapshot) (s : String) :
    getD (find_new_notifications c p) s
      = (getD c s).filter (fun item => item ∉ getD p s) := by
  induction c with
  | nil => rfl
  | cons q rest ih =>
    obtain ⟨k, v⟩ := q
    by_cases hk : k = s
    · subst hk
      simp [find_new_notifications, getD]
    · simp only [find_new_notifications, List.map_cons, getD, hk, if_false]
      exact ih

lemma getD_eq_nil_of_not_mem (p : Snapshot) (s : String)
    (h : s ∉ p.map Prod.fst) : getD p s = [] := by
  induction p with
  | nil => rfl
  | cons q rest ih =>
    have hk : q.1 ≠ s := fun hq => h (by simp [hq])
    obtain ⟨k, v⟩ := q
    simp only [getD, hk, if_false]
    exact ih (fun hs => h (List.mem_cons_of_mem _ hs))

lemma find_new_keys (c p : Snapshot) :
    (find_new_notifications c p).map Prod.fst = c.map Prod.fst := by
  simp [find_new_notifications]

/-- C1: `find_new_notifications` maps each category of `current` (key set
preserved, in order) to the ordered subsequence of current items not
structurally equal to any item of `previous`'s same category; a category
absent from `previous` keeps every current item. -/
theorem find_new_notifications_spec (current previous : Snapshot)
    (s : String) :
    (find_new_notifications current previous).map Prod.fst
        = current.map Prod.fst ∧
    getD (find_new_notifications current previous) s
        = (getD current s).filter (fun item => item ∉ getD previous s) ∧
    ((getD current s).filter
        (fun item => item ∉ getD previous s)).Sublist (getD current s) ∧
    (s ∉ previous.map Prod.fst →
      getD (find_new_notifications current previous) s = getD current s) := by
  refine ⟨find_new_keys current previous, getD_find_new current previous s,
    List.filter_sublist _, fun h => ?_⟩
  rw [getD_find_new, getD_eq_nil_of_not_mem previous s h]
  simp

lemma getD_eq_of_mem_nodup (A : Snapshot) (s : String) (items : List Item)
    (hmem : (s, items) ∈ A) (hnd : (A.map Prod.fst).Nodup) :
    getD A s = items := by
  induction A with
  | nil => cases hmem
  | cons q rest ih =>
    obtain ⟨k, v⟩ := q
    obtain ⟨hk, hnd'⟩ :=
      List.nodup_cons.mp (show (k :: rest.map Prod.fst).Nodup from hnd)
    rcases List.mem_cons.mp hmem with h | h
    · cases h
      simp [getD]
    · have hks : k ≠ s := by
        intro hks
        subst hks
        exact hk (List.mem_map.mpr ⟨(k, items), h, rfl⟩)
      simp only [getD, hks, if_false]
      exact ih h hnd'

/-- C9: diffing a snapshot against itself yields the empty list at every
category. -/
theorem find_new_self_empty (A : Snapshot) (hnd : (A.map Prod.fst).Nodup) :
    find_new_notifications A A = A.map (fun p => (p.1, ([] : List Item))) := by
  unfold find_new_notifications
  apply List.map_congr_left
  intro p hp
  obtain ⟨s, items⟩ := p
  simp only [Prod.mk.injEq, true_and]
  rw [getD_eq_of_mem_nodup A s items hp hnd]
  refine List.filter_eq_nil_iff.mpr (fun a ha => ?_)
  simp [ha]

/-! ## The telegram rendering and its normalization variant (C4) -/

/-- The rendering C4 claims for telegram: identical composition but with
the markdown-escaping variant (`for_markdown = true`) applied to the
category label, title, date and author. -/
def format_telegram_message_claimed (sectionName : String)
    (item : Item) : String :=
  let clean_section := clean_text sectionName true
  let clean_title := clean_text item.title true
  let link := item.link
  let base := "ðŸ“£ New " ++ clean_section ++ "!\n\n" ++
    clean_title ++ "\nðŸ”— " ++ link
  match item.date, item.author with
  | some d, some a =>
    base ++ "\nðŸ—“ " ++ clean_text d true ++
      "\nðŸ‘¤ " ++ clean_text a true
  | _, _ => base

/-- Spec-4.3-shaped telegram rendering with the non-markdown variant:
the message assembled from its pieces, with `clean_text · false` on the
category label, title, date and author, and the link verbatim. -/
def telegram_render (sectionName : String) (item : Item) : String :=
  String.join
    (["ðŸ“£ New ", clean_text sectionName false, "!\n\n",
      clean_text item.title false, "\nðŸ”— ", item.link] ++
     (match item.date, item.author with
      | some d, some a =>
        ["\nðŸ—“ ", clean_text d false, "\nðŸ‘¤ ", clean_text a false]
      | _, _ => []))

/-- Spec-4.3-shaped whatsapp rendering: no normalization on any field,
link verbatim. -/
def whatsapp_render (sectionName : String) (item : Item) : String :=
  String.join
    (["ðŸ“¢ New ", sectionName, " Alert!\n", item.title, "\nðŸ”— ",
      item.link] ++
     (match item.date, item.author with
      | some d, some a => ["\nðŸ—“ ", d, "\nðŸ‘¤ ", a]
      | _, _ => []))

/-- C4 counterexample: the telegram rendering does not markdown-escape the
title — `"a.b"` stays `"a.b"` instead of becoming `"a\.b"`. -/
theorem format_telegram_not_markdown_escaped :
    format_telegram_message "X" ⟨"a.b", "l", none, none⟩
      ≠ format_telegram_message_claimed "X" ⟨"a.b", "l", none, none⟩ := by
  decide

/-- C4 amended: the telegram rendering applies the non-markdown variant
(`for_markdown = false`) of `clean_text` to the category label, the title
and, when present, the date and author; the whatsapp rendering applies no
normalization; the link is passed through unescaped in both renderings. -/
theorem format_message_renderings (sectionName : String) (item : Item) :
    format_telegram_message sectionName item
        = telegram_render sectionName item ∧
    format_whatsapp_message sectionName item
        = whatsapp_render sectionName item := by
  obtain ⟨t, l, d, a⟩ := item
  cases d <;> cases a <;> exact ⟨rfl, rfl⟩

/-! ## Key-set lemmas for snapshots and deltas (C5) -/

lemma appendAt_keys (m : Snapshot) (k : String) (items : List Item) :
    (appendAt m k items).map Prod.fst = m.map Prod.fst := by
  induction m with
  | nil => rfl
  | cons q rest ih =>
    by_cases hq : q.1 = k <;> simp [appendAt, hq] at ih ⊢ <;> exact ih

lemma parseSection_keys (m : Snapshot) (sec : RawSection) :
    (parseSection m sec).map Prod.fst = m.map Prod.fst := by
  obtain ⟨ht, hc, pe, me⟩ := sec
  cases ht with
  | none => rfl
  | some title =>
    cases hl : lookupStr sections_map title with
    | none => simp [parseSection, hl]
    | some key =>
      cases hc with
      | false => simp [parseSection, hl]
      | true => simp [parseSection, hl, appendAt_keys]

lemma foldl_parseSection_keys (sections : List RawSection) (m : Snapshot) :
    ((sections.foldl parseSection m).map Prod.fst) = m.map Prod.fst := by
  induction sections generalizing m with
  | nil => rfl
  | cons sec rest ih => rw [List.foldl_cons, ih, parseSection_keys]

lemma parse_content_keys (sections : List RawSection) :
    (parse_content sections).map Prod.fst = recognized := by
  rw [parse_content, foldl_parseSection_keys]
  rfl

/-- C5 counterexample: the cycle after a failed fetch works on the empty
dict, whose category key set is empty, not the eight recognized
categories. -/
theorem fetch_failure_snapshot_no_categories :
    get_latest_notifications (.response 404 []) = ([] : Snapshot) ∧
    (get_latest_notifications (.response 404 [])).map Prod.fst
      ≠ recognized := by
  exact ⟨rfl, by decide⟩

/-- C5 amended: every snapshot produced by `parse_content` and every delta
computed from it carries exactly the eight recognized categories, in
order; but a fetch failure (non-200 status or raised transport error)
makes the cycle's current snapshot the empty dict. -/
theorem snapshot_delta_key_sets (sections : List RawSection)
    (previous : Snapshot) (status : Nat) (body : List RawSection)
    (hs : status ≠ 200) :
    (parse_content sections).map Prod.fst = recognized ∧
    (find_new_notifications (parse_content sections) previous).map Prod.fst
        = recognized ∧
    get_latest_notifications (.response 200 sections)
        = parse_content sections ∧
    get_latest_notifications (.response status body) = [] ∧
    get_latest_notifications .raised = [] := by
  refine ⟨parse_content_keys sections, ?_, rfl, ?_, rfl⟩
  · rw [find_new_keys, parse_content_keys]
  · simp [get_latest_notifications, hs]

/-! ## Fetch failure skips dispatch and save (C6) -/

/-- A failed fetch: a non-200 status or a raised transport exception. -/
def fetchFails : FetchResult → Prop
  | .response status _ => status ≠ 200
  | .raised => True

/-- C6: when the fetch returns a non-200 status or raises, no channel
sender is invoked (`send_notifications` is not reached at all), the
current snapshot is not persisted, and the loop proceeds to its next
scheduled tick. -/
theorem fetch_failure_skips_cycle (fetch : FetchResult) (previous : Snapshot)
    (tg wa : Option SenderBeh) (h : fetchFails fetch) :
    (check_for_updates fetch previous tg wa).dispatched = none ∧
    (check_for_updates fetch previous tg wa).saved = none ∧
    ticker_step (check_for_updates fetch previous tg wa) = .continues := by
  have hc : get_latest_notifications fetch = [] := by
    cases fetch with
    | response status body =>
      have hs : status ≠ 200 := h
      simp [get_latest_notifications, hs]
    | raised => rfl
  unfold check_for_updates
  rw [hc]
  exact ⟨rfl, rfl, rfl⟩

/-! ## Message building and dispatch (C2, C3) -/

lemma build_messages_go_fst_length (items : List Item) (sectionName : String)
    (acc : List String × List String) :
    (items.foldl (fun acc item =>
        (acc.1 ++ [format_telegram_message sectionName item],
         acc.2 ++ [format_whatsapp_message sectionName item])) acc).1.length
      = acc.1.length + items.length := by
  induction items generalizing acc with
  | nil => rfl
  | cons item rest ih =>
    rw [List.foldl_cons, ih]
    simp
    omega

lemma build_messages_fst_length (nn : Snapshot) :
    (build_messages nn).1.length = (nn.map (fun p => p.2.length)).sum := by
  suffices h : ∀ acc : List String × List String,
      (nn.foldl (fun acc p =>
        p.2.foldl (fun acc item =>
          (acc.1 ++ [format_telegram_message p.1 item],
           acc.2 ++ [format_whatsapp_message p.1 item])) acc) acc).1.length
      = acc.1.length + (nn.map (fun p => p.2.length)).sum by
    simpa [build_messages] using h ([], [])
  induction nn with
  | nil => intro acc; simp
  | cons p rest ih =>
    intro acc
    rw [List.foldl_cons, ih, build_messages_go_fst_length]
    simp
    omega

lemma build_messages_go_snd_length (items : List Item) (sectionName : String)
    (acc : List String × List String) :
    (items.foldl (fun acc item =>
        (acc.1 ++ [format_telegram_message sectionName item],
         acc.2 ++ [format_whatsapp_message sectionName item])) acc).2.length
      = acc.2.length + items.length := by
  induction items generalizing acc with
  | nil => rfl
  | cons item rest ih =>
    rw [List.foldl_cons, ih]
    simp
    omega

lemma build_messages_snd_length (nn : Snapshot) :
    (build_messages nn).2.length = (nn.map (fun p => p.2.length)).sum := by
  suffices h : ∀ acc : List String × List String,
      (nn.foldl (fun acc p =>
        p.2.foldl (fun acc item =>
          (acc.1 ++ [format_telegram_message p.1 item],
           acc.2 ++ [format_whatsapp_message p.1 item])) acc) acc).2.length
      = acc.2.length + (nn.map (fun p => p.2.length)).sum by
    simpa [build_messages] using h ([], [])
  induction nn with
  | nil => intro acc; simp
  | cons p rest ih =>
    intro acc
    rw [List.foldl_cons, ih, build_messages_go_snd_length]
    simp
    omega

/-- A delta with some non-empty category yields non-empty message lists
for both channels. -/
lemma build_messages_ne_of_any (nn : Snapshot)
    (h : nn.any (fun p => !p.2.isEmpty) = true) :
    (build_messages nn).1 ≠ [] ∧ (build_messages nn).2 ≠ [] := by
  obtain ⟨p, hp, hne⟩ := List.any_eq_true.mp h
  have hsum : 0 < (nn.map (fun p => p.2.length)).sum := by
    rcases Nat.eq_zero_or_pos ((nn.map (fun p => p.2.length)).sum) with h0 | h0
    · exfalso
      have hlen := List.sum_eq_zero_iff.mp h0 p.2.length
          (List.mem_map.mpr ⟨p, hp, rfl⟩)
      have hpe : p.2 = [] := List.length_eq_zero.mp hlen
      rw [hpe] at hne
      simp at hne
    · exact h0
  constructor
  · intro hnil
    rw [← List.length_eq_zero] at hnil
    rw [build_messages_fst_length nn] at hnil
    omega
  · intro hnil
    rw [← List.length_eq_zero] at hnil
    rw [build_messages_snd_length nn] at hnil
    omega

/-! ## Channel failure is not isolated (C2) -/

/-- A successful fetch whose page has one "Exam Notifications" anchor. -/
def fetchEx : FetchResult :=
  .response 200
    [{ headerText := some "Exam Notifications", hasContent := true,
       postEntries := [], mixedEntries := [.aTag "T" (some "L")] }]

/-- A telegram `send_items` that raises. -/
def tgBoom : SenderBeh := fun _ => some (.err "boom")

/-- A whatsapp `send_items` that returns normally. -/
def waOk : SenderBeh := fun _ => none

/-- C2 counterexample: with both senders registered and a non-empty delta,
a telegram `send_items` exception leaves the whatsapp sender uninvoked,
escapes `send_notifications` (and `check_for_updates`), and prevents the
snapshot from being persisted. -/
theorem sender_failure_not_isolated :
    ((check_for_updates fetchEx [] (some tgBoom) (some waOk)).dispatched.map
        (fun d => d.whatsappCalled)) = some none ∧
    (check_for_updates fetchEx [] (some tgBoom) (some waOk)).saved = none ∧
    (check_for_updates fetchEx [] (some tgBoom) (some waOk)).raised
        = some (.err "boom") := by
  exact ⟨rfl, rfl, rfl⟩

/-- Unfolding `send_notifications` when the telegram sender is registered,
has messages, and raises: the exception escapes at once, whatsapp never
invoked. -/
lemma send_notifications_tg_raises (tgBeh : SenderBeh) (wa : Option SenderBeh)
    (nn : Snapshot) (e : PyErr)
    (h1 : (build_messages nn).1 ≠ [])
    (htg : tgBeh (build_messages nn).1 = some e) :
    send_notifications (some tgBeh) wa nn
      = { telegramCalled := some (build_messages nn).1,
          whatsappCalled := none, raised := some e } := by
  simp only [send_notifications, List.isEmpty_eq_false.mpr h1, htg]
  rfl

/-- Unfolding `send_notifications` when the telegram call returns
normally: control reaches the whatsapp half. -/
lemma send_notifications_tg_ok (tgBeh : SenderBeh) (wa : Option SenderBeh)
    (nn : Snapshot)
    (h1 : (build_messages nn).1 ≠ [])
    (htg : tgBeh (build_messages nn).1 = none) :
    send_notifications (some tgBeh) wa nn
      = sendWhatsAppStep wa (build_messages nn).2
          (some (build_messages nn).1) := by
  simp only [send_notifications, List.isEmpty_eq_false.mpr h1, htg]
  rfl

/-- Unfolding the whatsapp half when the whatsapp sender is registered,
has messages, and raises. -/
lemma sendWhatsAppStep_wa_raises (waBeh : SenderBeh) (waMsgs : List String)
    (tgc : Option (List String)) (e : PyErr)
    (h2 : waMsgs ≠ [])
    (hwa : waBeh waMsgs = some e) :
    sendWhatsAppStep (some waBeh) waMsgs tgc
      = { telegramCalled := tgc, whatsappCalled := some waMsgs,
          raised := some e } := by
  simp only [sendWhatsAppStep, List.isEmpty_eq_false.mpr h2, hwa]
  rfl

/-- Unfolding `check_for_updates` in the dispatching branch when dispatch
raised: the save is skipped and the exception escapes the cycle. -/
lemma check_for_updates_raises (fetch : FetchResult) (previous : Snapshot)
    (tg wa : Option SenderBeh) (e : PyErr)
    (hne : (find_new_notifications (get_latest_notifications fetch)
        previous).any (fun p => !p.2.isEmpty) = true)
    (hd : (send_notifications tg wa
        (find_new_notifications (get_latest_notifications fetch)
          previous)).raised = some e) :
    check_for_updates fetch previous tg wa
      = { dispatched := some (send_notifications tg wa
            (find_new_notifications (get_latest_notifications fetch)
              previous)),
          saved := none, raised := some e } := by
  simp only [check_for_updates, hne, if_true, hd]

/-- C2 amended: with both senders registered and a non-empty delta, an
exception raised by either sender propagates out of `send_notifications`
and the cycle does not persist the snapshot; the telegram sender runs
first, so when it raises the whatsapp sender is never invoked. -/
theorem sender_failure_propagates (nn : Snapshot)
    (tgBeh waBeh : SenderBeh) (e : PyErr)
    (hne : nn.any (fun p => !p.2.isEmpty) = true)
    (hcase : tgBeh (build_messages nn).1 = some e ∨
      (tgBeh (build_messages nn).1 = none ∧
       waBeh (build_messages nn).2 = some e)) :
    (send_notifications (some tgBeh) (some waBeh) nn).raised = some e ∧
    (tgBeh (build_messages nn).1 = some e →
      (send_notifications (some tgBeh) (some waBeh) nn).whatsappCalled
        = none) ∧
    (∀ fetch previous,
      find_new_notifications (get_latest_notifications fetch) previous = nn →
      (check_for_updates fetch previous (some tgBeh) (some waBeh)).saved
          = none ∧
      (check_for_updates fetch previous (some tgBeh) (some waBeh)).raised
          = some e) := by
  obtain ⟨h1, h2⟩ := build_messages_ne_of_any nn hne
  have hsend : (send_notifications (some tgBeh) (some waBeh) nn).raised
        = some e ∧
      (tgBeh (build_messages nn).1 = some e →
        (send_notifications (some tgBeh) (some waBeh) nn).whatsappCalled
          = none) := by
    rcases hcase with htg | ⟨htg, hwa⟩
    · rw [send_notifications_tg_raises tgBeh (some waBeh) nn e h1 htg]
      exact ⟨rfl, fun _ => rfl⟩
    · rw [send_notifications_tg_ok tgBeh (some waBeh) nn h1 htg,
        sendWhatsAppStep_wa_raises waBeh (build_messages nn).2 _ e h2 hwa]
      refine ⟨rfl, fun habs => ?_⟩
      rw [habs] at htg
      cases htg
  refine ⟨hsend.1, hsend.2, fun fetch previous hdelta => ?_⟩
  have hne' : (find_new_notifications (get_latest_notifications fetch)
      previous).any (fun p => !p.2.isEmpty) = true := by rw [hdelta]; exact hne
  have hd : (send_notifications (some tgBeh) (some waBeh)
      (find_new_notifications (get_latest_notifications fetch)
        previous)).raised = some e := by rw [hdelta]; exact hsend.1
  rw [check_for_updates_raises fetch previous (some tgBeh) (some waBeh) e
    hne' hd]
  exact ⟨rfl, rfl⟩

/-! ## The ticker loop and error fatality (C3) -/

/-- When the registered whatsapp sender does not raise, the whatsapp half
returns normally. -/
lemma sendWhatsAppStep_no_raise (wa : Option SenderBeh)
    (waMsgs : List String) (tgc : Option (List String))
    (hwa : ∀ b, wa = some b → ∀ m, b m = none) :
    (sendWhatsAppStep wa waMsgs tgc).raised = none := by
  cases hwao : wa with
  | none => rfl
  | some waBeh =>
    by_cases h2 : waMsgs = []
    · simp only [sendWhatsAppStep, h2, List.isEmpty_nil, if_true]
    · simp only [sendWhatsAppStep, List.isEmpty_eq_false.mpr h2,
        hwa waBeh hwao waMsgs]
      rfl

/-- When no registered sender raises, `send_notifications` returns
normally. -/
lemma send_notifications_no_raise (tg wa : Option SenderBeh) (nn : Snapshot)
    (htg : ∀ b, tg = some b → ∀ m, b m = none)
    (hwa : ∀ b, wa = some b → ∀ m, b m = none) :
    (send_notifications tg wa nn).raised = none := by
  cases htgo : tg with
  | none =>
    simp only [send_notifications]
    exact sendWhatsAppStep_no_raise wa _ _ hwa
  | some tgBeh =>
    by_cases h1 : (build_messages nn).1 = []
    · simp only [send_notifications, h1, List.isEmpty_nil, if_true]
      exact sendWhatsAppStep_no_raise wa _ _ hwa
    · rw [send_notifications_tg_ok tgBeh wa nn h1
        (htg tgBeh htgo (build_messages nn).1)]
      exact sendWhatsAppStep_no_raise wa _ _ hwa

/-- C3 amended: a cycle whose registered senders do not raise always lets
the loop reach its next scheduled tick, whatever the fetch outcome (so
fetch and parse failures are never fatal); but `_ticker_loop` catches only
`CancelledError`, so any other exception escaping a cycle terminates the
loop. -/
theorem loop_reaches_next_tick (fetch : FetchResult) (previous : Snapshot)
    (tg wa : Option SenderBeh)
    (htg : ∀ b, tg = some b → ∀ m, b m = none)
    (hwa : ∀ b, wa = some b → ∀ m, b m = none) :
    ticker_step (check_for_updates fetch previous tg wa) = .continues ∧
    (∀ (r : CycleResult) (e : PyErr), r.raised = some e →
      e ≠ .cancelled → ticker_step r = .crashed e) := by
  constructor
  · have hr : (check_for_updates fetch previous tg wa).raised = none := by
      by_cases hd : (find_new_notifications (get_latest_notifications fetch)
          previous).any (fun p => !p.2.isEmpty) = true
      · simp only [check_for_updates, hd, if_true,
          send_notifications_no_raise tg wa _ htg hwa]
      · simp [check_for_updates, hd]
    unfold ticker_step
    rw [hr]
  · intro r e hre hne
    unfold ticker_step
    rw [hre]
    cases e with
    | cancelled => exact absurd rfl hne
    | err msg => rfl

/-- C3 counterexample: an exception raised by a channel sender during
dispatch — not a cancellation — terminates the ticker loop instead of
letting it reach its next tick. -/
theorem dispatch_error_kills_loop :
    ticker_step (check_for_updates fetchEx [] (some tgBoom) (some waOk))
        = .crashed (.err "boom") ∧
    PyErr.err "boom" ≠ PyErr.cancelled := by
  exact ⟨rfl, by decide⟩

/-! ## WhatsApp sender pacing and aborting (C7, C10) -/

lemma send_items_go_all_status (beh : Nat → PostOutcome) (spacing : ℚ)
    (messages : List String)
    (h : ∀ i, ∃ c, beh i = .status c) :
    ∀ (i : Nat) (acc : List Event),
      send_items_go beh spacing messages i acc
        = { trace := acc ++ messages.flatMap
              (fun m => [.send m, .sleep spacing]),
            raised := none } := by
  induction messages with
  | nil => intro i acc; simp [send_items_go]
  | cons m rest ih =>
    intro i acc
    obtain ⟨c, hc⟩ := h i
    rw [send_items_go, hc, ih (i + 1)]
    simp

lemma sends_append (a b : List Event) :
    sends (a ++ b) = sends a ++ sends b := by
  simp [sends]

lemma sends_flatMap (messages : List String) (spacing : ℚ) :
    sends (messages.flatMap (fun m => [.send m, .sleep spacing]))
      = messages := by
  induction messages with
  | nil => rfl
  | cons m rest ih => simp [sends] at ih ⊢; exact ih

/-- C7: when every POST of the call yields a response (success or not),
`send_items` attempts exactly one send per message, in input order, with
the pacing sleep after each send (so between any two consecutive sends),
and no exception escapes; a non-200 status is merely logged, so the later
messages are still attempted. -/
theorem send_items_attempts_all (beh : Nat → PostOutcome) (spacing : ℚ)
    (messages : List String)
    (h : ∀ i, ∃ c, beh i = .status c) :
    (send_items beh spacing messages).raised = none ∧
    (send_items beh spacing messages).trace
      = messages.flatMap (fun m => [.send m, .sleep spacing]) ∧
    sends (send_items beh spacing messages).trace = messages := by
  rw [send_items, send_items_go_all_status beh spacing messages h 0 []]
  exact ⟨rfl, by simp, by simp [sends_flatMap]⟩

lemma send_items_go_raise (beh : Nat → PostOutcome) (spacing : ℚ)
    (e : PyErr) :
    ∀ (messages : List String) (k i : Nat) (acc : List Event)
      (hk : k < messages.length),
      beh (i + k) = .raised e →
      (∀ j, j < k → ∃ c, beh (i + j) = .status c) →
      send_items_go beh spacing messages i acc
        = { trace := acc ++ (messages.take k).flatMap
                (fun m => [.send m, .sleep spacing])
              ++ [.send (messages.get ⟨k, hk⟩)],
            raised := some e } := by
  intro messages
  induction messages with
  | nil => intro k i acc hk; cases hk
  | cons m rest ih =>
    intro k i acc hk hraise hok
    cases k with
    | zero =>
      rw [send_items_go, show beh i = .raised e from by simpa using hraise]
      simp
    | succ k =>
      obtain ⟨c, hc⟩ := hok 0 (Nat.succ_pos k)
      rw [send_items_go, show beh i = .status c from by simpa using hc,
        ih k (i + 1) _ (Nat.lt_of_succ_lt_succ hk)
          (by rw [show i + 1 + k = i + (k + 1) from by omega]; exact hraise)
          (fun j hj => by
            rw [show i + 1 + j = i + (j + 1) from by omega]
            exact hok (j + 1) (Nat.succ_lt_succ hj))]
      simp

/-- C10: if the POST for the message at index `k` raises a transport
exception (all earlier POSTs returning responses), `send_items` attempts
exactly the first `k + 1` messages in order, the exception propagates out
of `send_items`, and the remaining messages are never attempted. -/
theorem send_items_raise_aborts (beh : Nat → PostOutcome) (spacing : ℚ)
    (messages : List String) (k : Nat) (e : PyErr)
    (hk : k < messages.length)
    (hraise : beh k = .raised e)
    (hok : ∀ j, j < k → ∃ c, beh j = .status c) :
    (send_items beh spacing messages).raised = some e ∧
    sends (send_items beh spacing messages).trace
      = messages.take (k + 1) := by
  rw [send_items, send_items_go_raise beh spacing e messages k 0 [] hk
    (by simpa using hraise) (fun j hj => by simpa using hok j hj)]
  refine ⟨rfl, ?_⟩
  have htake : messages.take (k + 1)
      = messages.take k ++ [messages.get ⟨k, hk⟩] := by
    rw [List.take_succ, List.getElem?_eq_getElem hk]
    simp
  rw [htake, List.nil_append, sends_append, sends_flatMap]
  rfl

/-! ## Concrete fixtures and witnesses -/

/-- A small concrete current snapshot. -/
def cEx : Snapshot :=
  [("Exam Notifications", [⟨"T", "L", none, none⟩]),
   ("Office Notifications", [])]

/-- A small concrete previous snapshot lacking "Office Notifications". -/
def pEx : Snapshot :=
  [("Exam Notifications", [⟨"T", "L", none, none⟩])]

theorem find_new_notifications_spec_witness :
    getD (find_new_notifications cEx pEx) "Office Notifications"
      = getD cEx "Office Notifications" :=
  (find_new_notifications_spec cEx pEx "Office Notifications").2.2.2
    (by simp [pEx])

theorem find_new_self_empty_witness :
    find_new_notifications cEx cEx
      = cEx.map (fun p => (p.1, ([] : List Item))) :=
  find_new_self_empty cEx (by simp [cEx])

theorem sender_failure_propagates_witness :
    (check_for_updates fetchEx [] (some tgBoom) (some waOk)).saved = none :=
  ((sender_failure_propagates
      (find_new_notifications (get_latest_notifications fetchEx) [])
      tgBoom waOk (.err "boom") (by decide) (Or.inl rfl)).2.2
    fetchEx [] rfl).1

theorem loop_reaches_next_tick_witness :
    ticker_step (check_for_updates .raised [] none none) = .continues :=
  (loop_reaches_next_tick .raised [] none none
    (fun _ h => nomatch h) (fun _ h => nomatch h)).1

theorem snapshot_delta_key_sets_witness :
    get_latest_notifications (.response 404 []) = ([] : Snapshot) :=
  (snapshot_delta_key_sets [] [] 404 []
    (by decide : (404 : Nat) ≠ 200)).2.2.2.1

theorem fetch_failure_skips_cycle_witness :
    (check_for_updates (.response 503 []) [] none none).saved = none :=
  (fetch_failure_skips_cycle (.response 503 []) [] none none
    (by decide : (503 : Nat) ≠ 200)).2.1

/-- A POST behaviour whose second response is a 500 (no exception). -/
def behMixed : Nat → PostOutcome :=
  fun i => .status (if i = 1 then 500 else 200)

theorem send_items_attempts_all_witness :
    sends (send_items behMixed default_spacing ["m1", "m2", "m3"]).trace
      = ["m1", "m2", "m3"] :=
  (send_items_attempts_all behMixed default_spacing ["m1", "m2", "m3"]
    (fun i => ⟨if i = 1 then 500 else 200, rfl⟩)).2.2

/-- A POST behaviour whose second attempt raises a transport error. -/
def behConnErr : Nat → PostOutcome :=
  fun i => if i = 1 then .raised (.err "conn") else .status 200

theorem send_items_raise_aborts_witness :
    (send_items behConnErr default_spacing ["m1", "m2", "m3"]).raised
        = some (.err "conn") ∧
    sends (send_items behConnErr default_spacing ["m1", "m2", "m3"]).trace
        = ["m1", "m2"] :=
  send_items_raise_aborts behConnErr default_spacing ["m1", "m2", "m3"] 1
    (.err "conn") (by decide) rfl
    (fun j hj => by
      rw [Nat.lt_one_iff] at hj
      subst hj
      exact ⟨200, rfl⟩)

end ApsitNotifier
